import Mathlib

/-!
# go-mongo-atlas: a verification development

Shallow embedding of `main.go`: the two HTTP handlers `post` ("/save") and
`get` ("/read"), the start-up routine `main` and `createConnection`.

The handlers are written in state-passing style over the state they touch
(the documents of the remote store, the sessions derived from the shared
connection `mongoConn`, the response writer).  Go's `panic(err)` is the
outcome `Outcome.panicked err`; a deferred `session.Close()` is run on every
exit that follows the `defer` statement, a return as well as a panic.

The libraries the program calls (`io/ioutil`, `net/http`, `mgo`, `bson`) are
not part of the repository.  Their observable behaviour is modelled from the
specification's description of the Store Connector operations, and every
choice that belongs to the outside world (a failing network, which document a
match-all query returns first) is an explicit input: `Body.fault`, `Driver`,
`Runtime`.
-/

namespace GoMongoAtlas

/-! ## Data model -/

/-- One byte of a payload or of a response body. -/
abbrev Byte := Fin 256

/-- Error values that the program hands to `panic`.  The numeric code tells
two errors of the same class apart. -/
inductive GoError where
  | bodyRead (code : Nat)
  | connection (code : Nat)
  | write (code : Nat)
  | read (code : Nat)
  | notFound
  | listen (code : Nat)
  deriving DecidableEq, Repr

/-- The Go struct `MyEntity` of main.go, lines 15-17: one field `Data []byte`,
stored under the key "data". -/
structure MyEntity where
  Data : List Byte
  deriving DecidableEq, Repr

/-- A request body stream: the bytes it delivers up to end of stream and the
error, if any, that the stream reports instead of a clean end. -/
structure Body where
  data : List Byte
  fault : Option GoError
  deriving DecidableEq, Repr

/-- The parts of `http.Request` a handler could look at. -/
structure Request where
  Method : String
  Path : String
  RawQuery : String
  Header : List (String × String)
  Body : Body
  deriving DecidableEq, Repr

/-- An `http.ResponseWriter`: the response body written so far. -/
structure ResponseWriter where
  body : List Byte
  deriving DecidableEq, Repr

/-- The writer a request starts with: nothing written. -/
def ResponseWriter.fresh : ResponseWriter := ⟨[]⟩

/-- The call `w.Write(bytes)`: appends to the response body. -/
def ResponseWriter.Write (w : ResponseWriter) (bytes : List Byte) : ResponseWriter :=
  ⟨w.body ++ bytes⟩

/-- Modelled from the spec: `ioutil.ReadAll` (standard library, not in the
repository).  Reads the whole stream, without a size cap, and returns the bytes
read together with the stream's error, `none` at a clean end of stream. -/
def ReadAll (b : Body) : List Byte × Option GoError :=
  (b.data, b.fault)

/-! ## The store and the driver -/

/-- A handle of type `*mgo.Session`. -/
structure Session where
  id : Nat
  deriving DecidableEq, Repr

/-- A handle of type `*mgo.Database`. -/
structure Database where
  session : Session
  name : String
  deriving DecidableEq, Repr

/-- A handle of type `*mgo.Collection`. -/
structure Collection where
  database : Database
  name : String
  deriving DecidableEq, Repr

/-- The call `session.DB(name)`. -/
def Session.DB (s : Session) (name : String) : Database := ⟨s, name⟩

/-- The call `db.C(name)`. -/
def Database.C (d : Database) (name : String) : Collection := ⟨d, name⟩

/-- A document of the remote store, with the namespace it lives in. -/
structure Doc where
  db : String
  coll : String
  entity : MyEntity
  deriving DecidableEq, Repr

/-- Session bookkeeping of the connector: a session was derived, or released. -/
inductive SessionEvent where
  | copy
  | close
  deriving DecidableEq, Repr

/-- What the handlers act on: the shared connection `mongoConn` (set by `main`
before a handler can run), the documents of the remote store in insertion
order, the number of derived sessions that are open, and the history of
session derivations and releases. -/
structure State where
  mongoConn : Session
  docs : List Doc
  openSessions : Nat
  sessionLog : List SessionEvent
  deriving DecidableEq, Repr

/-- What the outside world decides during one request: whether the insert
fails, whether the query fails on the network, and which of the matching
documents the store's scan yields first. -/
structure Driver where
  insertFault : Option GoError
  findFault : Option GoError
  findPick : Nat
  deriving DecidableEq, Repr

/-- The records of one collection, in insertion order. -/
def State.records (st : State) (db coll : String) : List MyEntity :=
  (st.docs.filter (fun d => decide (d.db = db ∧ d.coll = coll))).map Doc.entity

/-- Modelled from the spec: `derive_session`, the driver's `Session.Copy`
(mgo is not in the repository).  Cheap, never fails, yields an independent
handle; the connector has one more open session. -/
def Session.Copy (s : Session) (st : State) : Session × State :=
  (s, { st with openSessions := st.openSessions + 1,
                sessionLog := st.sessionLog ++ [SessionEvent.copy] })

/-- Modelled from the spec: releasing a derived session, the driver's
`Session.Close`.  The connector has one open session fewer. -/
def Session.Close (_s : Session) (st : State) : State :=
  { st with openSessions := st.openSessions - 1,
            sessionLog := st.sessionLog ++ [SessionEvent.close] }

/-- Modelled from the spec: `insert(session, collection, record)`, the
driver's `Collection.Insert`.  Either the store takes the record, which then
is the newest document of that collection, or the call fails with the write
error and the store keeps its documents. -/
def Collection.Insert (c : Collection) (drv : Driver) (st : State) (e : MyEntity) :
    Option GoError × State :=
  match drv.insertFault with
  | some err => (some err, st)
  | none => (none, { st with docs := st.docs ++ [⟨c.database.name, c.name, e⟩] })

/-- A `bson.M` filter over documents with the one field "data": the listed
fields must have the listed values.  `bson.M{}` is the empty list. -/
abbrev M := List (String × List Byte)

/-- Whether a stored record satisfies a filter. -/
def M.satisfiedBy (filter : M) (e : MyEntity) : Bool :=
  filter.all (fun kv => decide (kv.1 = "data" ∧ kv.2 = e.Data))

/-- A handle of type `*mgo.Query`. -/
structure Query where
  collection : Collection
  filter : M
  deriving DecidableEq, Repr

/-- The call `collection.Find(filter)`: prepares a query, touches nothing. -/
def Collection.Find (c : Collection) (filter : M) : Query := ⟨c, filter⟩

/-- The records a query matches, in insertion order. -/
def Query.matching (q : Query) (st : State) : List MyEntity :=
  (st.records q.collection.database.name q.collection.name).filter q.filter.satisfiedBy

/-- Modelled from the spec: `find_one`, the driver's `Query.One(&result)`.
Fails with the read error on a network or store failure, with the not-found
error when nothing matches, and otherwise stores into `result` one of the
matching records, the one the store's scan yields first (`findPick`).  On
failure `result` is left as it was. -/
def Query.One (q : Query) (drv : Driver) (st : State) (result : MyEntity) :
    MyEntity × Option GoError :=
  match drv.findFault with
  | some err => (result, some err)
  | none =>
    match (q.matching st)[drv.findPick % (q.matching st).length]? with
    | some e => (e, none)
    | none => (result, some GoError.notFound)

/-! ## The handlers -/

/-- How a handler ends: it returns, or it panics with an error. -/
inductive Outcome where
  | returned
  | panicked (err : GoError)
  deriving DecidableEq, Repr

/-- The state, the response writer and the outcome a handler leaves behind. -/
structure Result where
  state : State
  w : ResponseWriter
  outcome : Outcome
  deriving DecidableEq, Repr

/-- The handler `post` of main.go, lines 51-65. -/
def post (drv : Driver) (st : State) (w : ResponseWriter) (req : Request) : Result :=
  -- payload, err := ioutil.ReadAll(req.Body)
  let (payload, err) := ReadAll req.Body
  match err with
  | some e => ⟨st, w, Outcome.panicked e⟩          -- panic(err); nothing deferred yet
  | none =>
    -- session := mongoConn.Copy(); defer session.Close()
    let (session, st1) := st.mongoConn.Copy st
    let entity : MyEntity := { Data := payload }
    -- err = session.DB("test").C("data").Insert(entity)
    let (err2, st2) := ((session.DB "test").C "data").Insert drv st1 entity
    match err2 with
    | some e => ⟨session.Close st2, w, Outcome.panicked e⟩   -- panic(err), then the deferred Close
    | none => ⟨session.Close st2, w, Outcome.returned⟩       -- return, then the deferred Close

/-- The handler `get` of main.go, lines 67-79. -/
def get (drv : Driver) (st : State) (w : ResponseWriter) (_req : Request) : Result :=
  -- session := mongoConn.Copy(); defer session.Close()
  let (session, st1) := st.mongoConn.Copy st
  -- entity := MyEntity{}
  let entity0 : MyEntity := { Data := [] }
  -- err := session.DB("test").C("data").Find(bson.M{}).One(&entity)
  let (entity, err) := (((session.DB "test").C "data").Find []).One drv st1 entity0
  match err with
  | some e => ⟨session.Close st1, w, Outcome.panicked e⟩     -- panic(err), then the deferred Close
  | none =>
    let w1 := w.Write entity.Data                            -- w.Write(entity.Data)
    let w2 := w1.Write [10]                                  -- w.Write([]byte{10})
    ⟨session.Close st1, w2, Outcome.returned⟩                -- return, then the deferred Close

/-- A run of save requests, one after the other, each with its own driver
behaviour and a fresh response writer: the final state and the outcomes. -/
def postAll (st : State) : List (Driver × Request) → State × List Outcome
  | [] => (st, [])
  | c :: cs =>
    let r := post c.1 st ResponseWriter.fresh c.2
    let rest := postAll r.state cs
    (rest.1, r.outcome :: rest.2)

/-- The request bodies of a run of save requests. -/
def bodies (calls : List (Driver × Request)) : List (List Byte) :=
  calls.map (fun c => c.2.Body.data)

/-! ## Start-up -/

/-- The transport a custom `DialServer` function uses. -/
inductive Transport where
  | tlsTcp
  deriving DecidableEq, Repr

/-- The fields of `mgo.DialInfo` that `createConnection` sets. -/
structure DialInfo where
  Addrs : List String
  Username : String
  Password : String
  DialServer : Option Transport
  deriving DecidableEq, Repr

/-- The handler functions of the program, as values passed to `HandleFunc`. -/
inductive HandlerFunc where
  | post
  | get
  deriving DecidableEq, Repr

/-- What the outside world decides at start-up: whether dialling the cluster
succeeds, and with which error `http.ListenAndServe` comes back, `none` when it
keeps serving and does not come back. -/
structure Runtime where
  dial : DialInfo → Except GoError Session
  listenAndServe : String → Option GoError

/-- What `main` does, step by step. -/
inductive MainEvent where
  | assignConn (s : Option Session)
  | handleFunc (pattern : String) (h : HandlerFunc)
  | listenAndServe (addr : String)
  deriving DecidableEq, Repr

/-- Process-wide state: the package variable `mongoConn` (nil at first), the
routes of the default mux, the addresses a listener was started on, and the
steps `main` took. -/
structure Process where
  mongoConn : Option Session
  mux : List (String × HandlerFunc)
  listeners : List String
  trace : List MainEvent
  deriving DecidableEq, Repr

/-- The process before `main` runs. -/
def Process.start : Process := ⟨none, [], [], []⟩

/-- How `main` ends: it panics, or it stays inside `ListenAndServe`. -/
inductive MainOutcome where
  | panicked (err : GoError)
  | serving
  deriving DecidableEq, Repr

/-- The function `createConnection` of main.go, lines 19-34: dials the three
fixed shard addresses with the fixed credentials over TLS. -/
def createConnection (rt : Runtime) : Except GoError Session :=
  let dialInfo : DialInfo :=
    { Addrs := ["abc-shard-00-00.gcp.mongodb.net:27017",
                "abc-shard-00-01.gcp.mongodb.net:27017",
                "abc-shard-00-02.gcp.mongodb.net:27017"],
      Username := "MongoUser",
      Password := "YourVerySecurePassword",
      DialServer := some Transport.tlsTcp }
  rt.dial dialInfo

/-- The call `http.HandleFunc(pattern, handler)`: registers a route. -/
def HandleFunc (p : Process) (pattern : String) (h : HandlerFunc) : Process :=
  { p with mux := p.mux ++ [(pattern, h)],
           trace := p.trace ++ [MainEvent.handleFunc pattern h] }

/-- The call `http.ListenAndServe(addr, nil)`. -/
def ListenAndServe (rt : Runtime) (p : Process) (addr : String) : Process × Option GoError :=
  ({ p with listeners := p.listeners ++ [addr],
            trace := p.trace ++ [MainEvent.listenAndServe addr] },
   rt.listenAndServe addr)

/-- The function `main` of main.go, lines 36-49. -/
def main (rt : Runtime) (p : Process) : Process × MainOutcome :=
  -- mongoConn, err = createConnection()
  match createConnection rt with
  | Except.error err =>
    ({ p with mongoConn := none, trace := p.trace ++ [MainEvent.assignConn none] },
     MainOutcome.panicked err)                                  -- panic(err)
  | Except.ok s =>
    let p1 := { p with mongoConn := some s, trace := p.trace ++ [MainEvent.assignConn (some s)] }
    let p2 := HandleFunc p1 "/save" HandlerFunc.post           -- http.HandleFunc("/save", post)
    let p3 := HandleFunc p2 "/read" HandlerFunc.get            -- http.HandleFunc("/read", get)
    -- if err := http.ListenAndServe(":8080", nil); err != nil { panic(err) }
    match ListenAndServe rt p3 ":8080" with
    | (p4, some err) => (p4, MainOutcome.panicked err)
    | (p4, none) => (p4, MainOutcome.serving)

/-- Modelled from the spec: the gateway "dispatches by path" (the default mux
of net/http, not in the repository).  A request goes to the handler whose
registered pattern equals its path; the method, the query and the headers play
no part.  `none` when no registered pattern equals the path. -/
def serve (p : Process) (drv : Driver) (st : State) (w : ResponseWriter) (req : Request) :
    Option Result :=
  match p.mux.find? (fun r => decide (r.1 = req.Path)) with
  | some (_, HandlerFunc.post) => some (post drv st w req)
  | some (_, HandlerFunc.get) => some (get drv st w req)
  | none => none

/-! ## Auxiliary definitions for the statements -/

/-- The number of open sessions after a run of session events, when `n` were
open before it. -/
def openAfter (n : Nat) : List SessionEvent → Nat
  | [] => n
  | SessionEvent.copy :: es => openAfter (n + 1) es
  | SessionEvent.close :: es => openAfter (n - 1) es

/-- The state once a session has been derived and released again on top of
`st`, with `docs` the documents then in the store. -/
def State.afterSession (st : State) (docs : List Doc) : State :=
  { st with docs := docs,
            openSessions := st.openSessions + 1 - 1,
            sessionLog := st.sessionLog ++ [SessionEvent.copy] ++ [SessionEvent.close] }

/-- The document `post` builds from a payload. -/
def savedDoc (payload : List Byte) : Doc := ⟨"test", "data", ⟨payload⟩⟩

/-- The records of the collection once the saves of `calls` have been added
to those of `st`. -/
def recordsAfterSaves (st : State) (calls : List (Driver × Request)) : List MyEntity :=
  st.records "test" "data" ++ (bodies calls).map MyEntity.mk

/-- The routes `main` registers. -/
def routes : List (String × HandlerFunc) :=
  [("/save", HandlerFunc.post), ("/read", HandlerFunc.get)]

/-! ## Sample inputs -/

/-- A store without documents, no session open. -/
def State.empty : State := ⟨⟨0⟩, [], 0, []⟩

/-- A driver behaviour without failures, the scan yielding position `pick`. -/
def Driver.ok (pick : Nat) : Driver := ⟨none, none, pick⟩

/-- A driver behaviour whose insert and query fail. -/
def Driver.down : Driver := ⟨some (GoError.write 7), some (GoError.read 8), 0⟩

/-- A save request with the given body. -/
def saveRequest (payload : List Byte) : Request :=
  ⟨"POST", "/save", "", [], ⟨payload, none⟩⟩

/-- A save request whose body stream breaks. -/
def brokenRequest : Request :=
  ⟨"POST", "/save", "", [], ⟨[1, 2], some (GoError.bodyRead 5)⟩⟩

/-- A request to "/save" that is no POST and carries headers and a query. -/
def deleteRequest (payload : List Byte) : Request :=
  ⟨"DELETE", "/save", "x=1", [("Content-Type", "text/plain")], ⟨payload, none⟩⟩

/-- A read request. -/
def readRequest : Request :=
  ⟨"GET", "/read", "", [], ⟨[], none⟩⟩

/-- The bytes of "hello". -/
def hello : List Byte := [104, 101, 108, 108, 111]

/-- A start-up in which dialling the cluster fails. -/
def Runtime.unreachable : Runtime :=
  ⟨fun _ => Except.error (GoError.connection 3), fun _ => none⟩

/-- A start-up in which dialling succeeds and the server keeps serving. -/
def Runtime.healthy : Runtime :=
  ⟨fun _ => Except.ok ⟨1⟩, fun _ => none⟩

/-! ## Basic facts about the handlers -/

theorem post_of_bodyFault (drv : Driver) (st : State) (w : ResponseWriter) (req : Request)
    (e : GoError) (h : req.Body.fault = some e) :
    post drv st w req = ⟨st, w, Outcome.panicked e⟩ := by
  simp [post, ReadAll, h]

theorem post_of_insertFault (drv : Driver) (st : State) (w : ResponseWriter) (req : Request)
    (e : GoError) (h1 : req.Body.fault = none) (h2 : drv.insertFault = some e) :
    post drv st w req = ⟨st.afterSession st.docs, w, Outcome.panicked e⟩ := by
  simp [post, ReadAll, h1, h2, Session.Copy, Session.Close, Collection.Insert,
    State.afterSession]

theorem post_of_ok (drv : Driver) (st : State) (w : ResponseWriter) (req : Request)
    (h1 : req.Body.fault = none) (h2 : drv.insertFault = none) :
    post drv st w req
      = ⟨st.afterSession (st.docs ++ [savedDoc req.Body.data]), w, Outcome.returned⟩ := by
  simp [post, ReadAll, h1, h2, Session.Copy, Session.Close, Collection.Insert,
    State.afterSession, Session.DB, Database.C, savedDoc]

theorem get_of_findFault (drv : Driver) (st : State) (w : ResponseWriter) (req : Request)
    (e : GoError) (h : drv.findFault = some e) :
    get drv st w req = ⟨st.afterSession st.docs, w, Outcome.panicked e⟩ := by
  simp [get, Query.One, h, Session.Copy, Session.Close, State.afterSession]

theorem matching_all (s : Session) (st : State) :
    (((s.DB "test").C "data").Find []).matching st = st.records "test" "data" := by
  simp [Query.matching, Collection.Find, Session.DB, Database.C, M.satisfiedBy]

theorem records_copy (s : Session) (st : State) (db coll : String) :
    (s.Copy st).2.records db coll = st.records db coll := by
  simp [Session.Copy, State.records]

theorem get_of_none (drv : Driver) (st : State) (w : ResponseWriter) (req : Request)
    (h : drv.findFault = none)
    (h2 : (st.records "test" "data")[drv.findPick % (st.records "test" "data").length]? = none) :
    get drv st w req = ⟨st.afterSession st.docs, w, Outcome.panicked GoError.notFound⟩ := by
  have hm := matching_all (st.mongoConn.Copy st).1 (st.mongoConn.Copy st).2
  rw [records_copy] at hm
  simp only [get, Query.One, h, hm, h2]
  simp [Session.Copy, Session.Close, State.afterSession]

theorem get_of_some (drv : Driver) (st : State) (w : ResponseWriter) (req : Request)
    (e : MyEntity) (h : drv.findFault = none)
    (h2 : (st.records "test" "data")[drv.findPick % (st.records "test" "data").length]? = some e) :
    get drv st w req
      = ⟨st.afterSession st.docs, ⟨w.body ++ e.Data ++ [10]⟩, Outcome.returned⟩ := by
  have hm := matching_all (st.mongoConn.Copy st).1 (st.mongoConn.Copy st).2
  rw [records_copy] at hm
  simp only [get, Query.One, h, hm, h2]
  simp [Session.Copy, Session.Close, State.afterSession, ResponseWriter.Write]

theorem records_afterSession (st : State) (docs : List Doc) (db coll : String) :
    (st.afterSession docs).records db coll
      = (docs.filter (fun d => decide (d.db = db ∧ d.coll = coll))).map Doc.entity := by
  simp [State.afterSession, State.records]

theorem records_afterSession_same (st : State) (db coll : String) :
    (st.afterSession st.docs).records db coll = st.records db coll := by
  simp [State.afterSession, State.records]

theorem records_afterSession_saved (st : State) (B : List Byte) :
    (st.afterSession (st.docs ++ [savedDoc B])).records "test" "data"
      = st.records "test" "data" ++ [⟨B⟩] := by
  simp [State.afterSession, State.records, savedDoc, List.filter_append]

theorem records_afterSession_other (st : State) (B : List Byte) (db coll : String)
    (h : ¬ (db = "test" ∧ coll = "data")) :
    (st.afterSession (st.docs ++ [savedDoc B])).records db coll = st.records db coll := by
  have h2 : ¬ ("test" = db ∧ "data" = coll) := fun hh => h ⟨hh.1.symm, hh.2.symm⟩
  simp [State.afterSession, State.records, savedDoc, List.filter_append, List.filter_cons, h2]

theorem pick_some_of_ne_nil {α : Type} (l : List α) (n : Nat) (h : l ≠ []) :
    ∃ e, l[n % l.length]? = some e ∧ e ∈ l := by
  have hpos : 0 < l.length := List.length_pos.mpr h
  have hlt : n % l.length < l.length := Nat.mod_lt _ hpos
  exact ⟨l[n % l.length], List.getElem?_eq_getElem hlt, List.getElem_mem hlt⟩

theorem pick_none_of_nil {α : Type} (l : List α) (n : Nat) (h : l = []) :
    l[n % l.length]? = none := by
  subst h
  simp

theorem post_returned_iff (drv : Driver) (st : State) (w : ResponseWriter) (req : Request) :
    (post drv st w req).outcome = Outcome.returned
      ↔ req.Body.fault = none ∧ drv.insertFault = none := by
  cases h1 : req.Body.fault with
  | some e => simp [post_of_bodyFault drv st w req e h1]
  | none =>
    cases h2 : drv.insertFault with
    | some e => simp [post_of_insertFault drv st w req e h1 h2]
    | none => simp [post_of_ok drv st w req h1 h2]

theorem get_returned_iff (drv : Driver) (st : State) (w : ResponseWriter) (req : Request) :
    (get drv st w req).outcome = Outcome.returned
      ↔ drv.findFault = none ∧ st.records "test" "data" ≠ [] := by
  cases h1 : drv.findFault with
  | some e => simp [get_of_findFault drv st w req e h1]
  | none =>
    by_cases h2 : st.records "test" "data" = []
    · simp [get_of_none drv st w req h1 (pick_none_of_nil _ _ h2), h2]
    · obtain ⟨e, he, _⟩ := pick_some_of_ne_nil (st.records "test" "data") drv.findPick h2
      simp [get_of_some drv st w req e h1 he, h2]

theorem postAll_records (calls : List (Driver × Request)) :
    ∀ st : State, (∀ o ∈ (postAll st calls).2, o = Outcome.returned) →
      (postAll st calls).1.records "test" "data"
        = st.records "test" "data" ++ (bodies calls).map MyEntity.mk := by
  induction calls with
  | nil => intro st _; simp [postAll, bodies]
  | cons c cs ih =>
    intro st hok
    have hc : (post c.1 st ResponseWriter.fresh c.2).outcome = Outcome.returned :=
      hok _ (by simp [postAll])
    obtain ⟨h1, h2⟩ := (post_returned_iff _ _ _ _).mp hc
    have hrest : ∀ o ∈ (postAll (post c.1 st ResponseWriter.fresh c.2).state cs).2,
        o = Outcome.returned := fun o ho => hok o (by simp [postAll, ho])
    have := ih _ hrest
    simp only [postAll]
    rw [this, post_of_ok c.1 st _ c.2 h1 h2]
    simp [records_afterSession_saved, bodies]

/-! ## Save then read -/

/-- C1. Round trip on an empty collection: when the collection holds no
record, the body stream of the save request delivers `B` without error, the
insert succeeds and the query is not hit by a network failure, then `post`
returns, the following `get` returns, and the response body `get` writes is `B`
followed by the single byte 10 (after whatever the writer held before, nothing
for a fresh writer). -/
theorem round_trip_on_empty_collection (drvP drvG : Driver) (st : State)
    (reqP reqG : Request) (B : List Byte)
    (hempty : st.records "test" "data" = [])
    (hread : ReadAll reqP.Body = (B, none))
    (hins : drvP.insertFault = none)
    (hfind : drvG.findFault = none) :
    (post drvP st ResponseWriter.fresh reqP).outcome = Outcome.returned ∧
    (get drvG (post drvP st ResponseWriter.fresh reqP).state ResponseWriter.fresh reqG).outcome
      = Outcome.returned ∧
    (get drvG (post drvP st ResponseWriter.fresh reqP).state ResponseWriter.fresh reqG).w.body
      = B ++ [10] ∧
    ∀ w : ResponseWriter,
      (get drvG (post drvP st ResponseWriter.fresh reqP).state w reqG).w.body
        = w.body ++ B ++ [10] := by
  simp only [ReadAll, Prod.mk.injEq] at hread
  obtain ⟨hB, hfault⟩ := hread
  have hpost := post_of_ok drvP st ResponseWriter.fresh reqP hfault hins
  have hrec : (post drvP st ResponseWriter.fresh reqP).state.records "test" "data" = [⟨B⟩] := by
    rw [hpost]
    simp [records_afterSession_saved, hempty, hB]
  have hpick : ((post drvP st ResponseWriter.fresh reqP).state.records "test" "data")[
      drvG.findPick % ((post drvP st ResponseWriter.fresh reqP).state.records
        "test" "data").length]? = some ⟨B⟩ := by
    rw [hrec]
    simp [Nat.mod_one]
  have hget := fun w => get_of_some drvG (post drvP st ResponseWriter.fresh reqP).state w reqG
    ⟨B⟩ hfind hpick
  refine ⟨by rw [hpost], by rw [hget], by rw [hget]; simp [ResponseWriter.fresh], ?_⟩
  intro w
  rw [hget]

/-- C2. After one or more successful saves issued on an empty collection, a
`get` whose query is not hit by a network failure returns, and the response
body it writes is `d` followed by the single byte 10, where `d` is the whole
content of one stored record and is the body of one of the saves. -/
theorem get_returns_one_of_the_saved (st : State) (calls : List (Driver × Request))
    (drvG : Driver) (w : ResponseWriter) (reqG : Request)
    (hempty : st.records "test" "data" = [])
    (hn : 1 ≤ calls.length)
    (hok : ∀ o ∈ (postAll st calls).2, o = Outcome.returned)
    (hfind : drvG.findFault = none) :
    (get drvG (postAll st calls).1 w reqG).outcome = Outcome.returned ∧
    ∃ d : List Byte,
      (⟨d⟩ : MyEntity) ∈ (postAll st calls).1.records "test" "data" ∧
      (∃ i, ∃ h : i < calls.length, d = (calls.get ⟨i, h⟩).2.Body.data) ∧
      (get drvG (postAll st calls).1 w reqG).w.body = w.body ++ d ++ [10] := by
  have hrecs := postAll_records calls st hok
  rw [hempty, List.nil_append] at hrecs
  have hne : (postAll st calls).1.records "test" "data" ≠ [] := by
    rw [hrecs]
    intro h
    have := congrArg List.length h
    simp only [bodies, List.length_map, List.length_nil] at this
    omega
  obtain ⟨e, he, hmem⟩ := pick_some_of_ne_nil _ drvG.findPick hne
  have hget := get_of_some drvG (postAll st calls).1 w reqG e hfind he
  refine ⟨by rw [hget], e.Data, hmem, ?_, by rw [hget]⟩
  rw [hrecs] at hmem
  simp only [bodies, List.map_map, List.mem_map] at hmem
  obtain ⟨c, hc, hce⟩ := hmem
  obtain ⟨i, hi, hget2⟩ := List.getElem_of_mem hc
  refine ⟨i, hi, ?_⟩
  rw [← hce]
  simp [List.get_eq_getElem, hget2]

/-- C3. A `post` whose body read succeeds with `B` and whose insert succeeds
returns, appends exactly the one document `{data: B}` of collection "data" in
database "test" to the store, leaves every other collection as it was, makes
the number of records grow by exactly one, and writes nothing to the
response. -/
theorem post_inserts_exactly_one_record (drv : Driver) (st : State) (w : ResponseWriter)
    (req : Request) (B : List Byte)
    (hread : ReadAll req.Body = (B, none))
    (hins : drv.insertFault = none) :
    (post drv st w req).outcome = Outcome.returned ∧
    (post drv st w req).state.docs = st.docs ++ [⟨"test", "data", ⟨B⟩⟩] ∧
    (post drv st w req).state.records "test" "data" = st.records "test" "data" ++ [⟨B⟩] ∧
    (∀ db coll, ¬ (db = "test" ∧ coll = "data") →
      (post drv st w req).state.records db coll = st.records db coll) ∧
    (post drv st w req).state.docs.length = st.docs.length + 1 ∧
    ((post drv st w req).state.records "test" "data").length
      = (st.records "test" "data").length + 1 ∧
    (post drv st w req).w = w := by
  simp only [ReadAll, Prod.mk.injEq] at hread
  obtain ⟨hB, hfault⟩ := hread
  rw [post_of_ok drv st w req hfault hins, hB]
  refine ⟨rfl, ?_, records_afterSession_saved st B, ?_, ?_, ?_, rfl⟩
  · simp [State.afterSession, savedDoc]
  · intro db coll h
    exact records_afterSession_other st B db coll h
  · simp [State.afterSession]
  · simp [records_afterSession_saved]

/-- C4. When the collection holds no record and the query is not hit by a
network failure, `get` panics with the not-found error, writes no byte to the
response, and leaves the store as it was, the collection still empty. -/
theorem get_on_empty_collection_not_found (drv : Driver) (st : State) (w : ResponseWriter)
    (req : Request)
    (hempty : st.records "test" "data" = [])
    (hfind : drv.findFault = none) :
    (get drv st w req).outcome = Outcome.panicked GoError.notFound ∧
    (get drv st w req).w = w ∧
    (get drv st w req).state.docs = st.docs ∧
    (get drv st w req).state.records "test" "data" = [] := by
  rw [get_of_none drv st w req hfind (pick_none_of_nil _ _ hempty)]
  refine ⟨rfl, rfl, by simp [State.afterSession], ?_⟩
  rw [records_afterSession_same, hempty]

/-- Witness of C1: saving "hello", then reading, gives "hello\n"; saving the
empty body, then reading, gives "\n". -/
theorem round_trip_on_empty_collection_witness :
    (get (Driver.ok 0) (post (Driver.ok 0) State.empty ResponseWriter.fresh
        (saveRequest hello)).state ResponseWriter.fresh readRequest).w.body
      = [104, 101, 108, 108, 111, 10] ∧
    (get (Driver.ok 0) (post (Driver.ok 0) State.empty ResponseWriter.fresh
        (saveRequest [])).state ResponseWriter.fresh readRequest).w.body
      = [10] :=
  ⟨(round_trip_on_empty_collection (Driver.ok 0) (Driver.ok 0) State.empty
      (saveRequest hello) readRequest hello rfl rfl rfl rfl).2.2.1,
   (round_trip_on_empty_collection (Driver.ok 0) (Driver.ok 0) State.empty
      (saveRequest []) readRequest [] rfl rfl rfl rfl).2.2.1⟩

/-- Witness of C2: after saving [1] and then [2], a read answers with one of
the two, each followed by the newline byte. -/
theorem get_returns_one_of_the_saved_witness :
    (get (Driver.ok 3) (postAll State.empty
        [(Driver.ok 0, saveRequest [1]), (Driver.ok 0, saveRequest [2])]).1
        ResponseWriter.fresh readRequest).outcome = Outcome.returned ∧
    ∃ d : List Byte,
      (⟨d⟩ : MyEntity) ∈ (postAll State.empty
        [(Driver.ok 0, saveRequest [1]), (Driver.ok 0, saveRequest [2])]).1.records
          "test" "data" ∧
      (∃ i, ∃ h : i < [(Driver.ok 0, saveRequest [1]), (Driver.ok 0, saveRequest [2])].length,
        d = ([(Driver.ok 0, saveRequest [1]), (Driver.ok 0, saveRequest [2])].get
          ⟨i, h⟩).2.Body.data) ∧
      (get (Driver.ok 3) (postAll State.empty
        [(Driver.ok 0, saveRequest [1]), (Driver.ok 0, saveRequest [2])]).1
        ResponseWriter.fresh readRequest).w.body = ResponseWriter.fresh.body ++ d ++ [10] :=
  get_returns_one_of_the_saved State.empty
    [(Driver.ok 0, saveRequest [1]), (Driver.ok 0, saveRequest [2])]
    (Driver.ok 3) ResponseWriter.fresh readRequest rfl (by decide) (by decide) rfl

/-- Witness of C3: saving "hello" into a store that holds one record. -/
theorem post_inserts_exactly_one_record_witness :
    (post (Driver.ok 0) (post (Driver.ok 0) State.empty ResponseWriter.fresh
        (saveRequest [9])).state ResponseWriter.fresh (saveRequest hello)).state.records
        "test" "data" = [⟨[9]⟩, ⟨hello⟩] ∧
    (post (Driver.ok 0) (post (Driver.ok 0) State.empty ResponseWriter.fresh
        (saveRequest [9])).state ResponseWriter.fresh (saveRequest hello)).w.body = [] :=
  ⟨(post_inserts_exactly_one_record (Driver.ok 0)
      (post (Driver.ok 0) State.empty ResponseWriter.fresh (saveRequest [9])).state
      ResponseWriter.fresh (saveRequest hello) hello rfl rfl).2.2.1,
   congrArg ResponseWriter.body (post_inserts_exactly_one_record (Driver.ok 0)
      (post (Driver.ok 0) State.empty ResponseWriter.fresh (saveRequest [9])).state
      ResponseWriter.fresh (saveRequest hello) hello rfl rfl).2.2.2.2.2.2⟩

/-- Witness of C4: a read on the store without documents. -/
theorem get_on_empty_collection_not_found_witness :
    (get (Driver.ok 0) State.empty ResponseWriter.fresh readRequest).outcome
      = Outcome.panicked GoError.notFound ∧
    (get (Driver.ok 0) State.empty ResponseWriter.fresh readRequest).w = ResponseWriter.fresh ∧
    (get (Driver.ok 0) State.empty ResponseWriter.fresh readRequest).state.docs = [] ∧
    (get (Driver.ok 0) State.empty ResponseWriter.fresh readRequest).state.records
      "test" "data" = [] :=
  get_on_empty_collection_not_found (Driver.ok 0) State.empty ResponseWriter.fresh readRequest
    rfl rfl

/-- C5, the claim as stated fails: after the successful saves [1] and then
[2] on an empty store, a successful read whose scan yields the oldest record
answers [1, 10], not the most recently saved [2] followed by 10. -/
theorem get_most_recent_counterexample :
    (∀ o ∈ (postAll State.empty
        [(Driver.ok 0, saveRequest [1]), (Driver.ok 0, saveRequest [2])]).2,
      o = Outcome.returned) ∧
    (get (Driver.ok 0) (postAll State.empty
        [(Driver.ok 0, saveRequest [1]), (Driver.ok 0, saveRequest [2])]).1
        ResponseWriter.fresh readRequest).outcome = Outcome.returned ∧
    (get (Driver.ok 0) (postAll State.empty
        [(Driver.ok 0, saveRequest [1]), (Driver.ok 0, saveRequest [2])]).1
        ResponseWriter.fresh readRequest).w.body = [1, 10] ∧
    (get (Driver.ok 0) (postAll State.empty
        [(Driver.ok 0, saveRequest [1]), (Driver.ok 0, saveRequest [2])]).1
        ResponseWriter.fresh readRequest).w.body ≠ [2] ++ [10] := by
  decide

/-- C5 as amended: after one or more successful saves, the collection holds
the records it held before followed by the saved bodies in order; a `get` whose
query is not hit by a network failure returns and writes the record at the
position the store's scan selects, followed by the byte 10.  That record is the
most recently saved body when the scan selects the last position, which it
must when the collection was empty before a single save. -/
theorem get_returns_the_selected_record (st : State) (calls : List (Driver × Request))
    (drvG : Driver) (w : ResponseWriter) (reqG : Request)
    (hn : 1 ≤ calls.length)
    (hok : ∀ o ∈ (postAll st calls).2, o = Outcome.returned)
    (hfind : drvG.findFault = none) :
    (postAll st calls).1.records "test" "data" = recordsAfterSaves st calls ∧
    (get drvG (postAll st calls).1 w reqG).outcome = Outcome.returned ∧
    (∃ e, (recordsAfterSaves st calls)[
          drvG.findPick % (recordsAfterSaves st calls).length]? = some e ∧
        (get drvG (postAll st calls).1 w reqG).w.body = w.body ++ e.Data ++ [10]) ∧
    (∀ Bn, (bodies calls).getLast? = some Bn →
        drvG.findPick % (recordsAfterSaves st calls).length
          = (recordsAfterSaves st calls).length - 1 →
        (get drvG (postAll st calls).1 w reqG).w.body = w.body ++ Bn ++ [10]) ∧
    (∀ Bn, (bodies calls).getLast? = some Bn →
        st.records "test" "data" = [] → calls.length = 1 →
        (get drvG (postAll st calls).1 w reqG).w.body = w.body ++ Bn ++ [10]) := by
  have hrecs : (postAll st calls).1.records "test" "data" = recordsAfterSaves st calls :=
    postAll_records calls st hok
  have hlen : (recordsAfterSaves st calls).length
      = (st.records "test" "data").length + calls.length := by
    simp [recordsAfterSaves, bodies]
  have hne : (postAll st calls).1.records "test" "data" ≠ [] := by
    rw [hrecs]
    intro h
    have := congrArg List.length h
    rw [hlen] at this
    simp only [List.length_nil] at this
    omega
  obtain ⟨e, he, _⟩ := pick_some_of_ne_nil _ drvG.findPick hne
  have hget := get_of_some drvG (postAll st calls).1 w reqG e hfind he
  rw [hrecs] at he
  have hlast : ∀ Bn, (bodies calls).getLast? = some Bn →
      drvG.findPick % (recordsAfterSaves st calls).length
        = (recordsAfterSaves st calls).length - 1 →
      (get drvG (postAll st calls).1 w reqG).w.body = w.body ++ Bn ++ [10] := by
    intro Bn hBn hpick
    have h1 : (recordsAfterSaves st calls).getLast? = some ⟨Bn⟩ := by
      simp [recordsAfterSaves, List.getLast?_append, List.getLast?_map, hBn]
    rw [List.getLast?_eq_getElem?, ← hpick, he] at h1
    have h2 : e = ⟨Bn⟩ := Option.some.inj h1
    rw [hget, h2]
  refine ⟨hrecs, by rw [hget], ⟨e, he, by rw [hget]⟩, hlast, ?_⟩
  intro Bn hBn hempty hone
  apply hlast Bn hBn
  have h1 : (recordsAfterSaves st calls).length = 1 := by
    rw [hlen, hempty, hone]
    rfl
  rw [h1, Nat.mod_one]

/-- Witness of C5 as amended: after saving [1] and then [2], a read whose scan
selects position 1 answers [2, 10]. -/
theorem get_returns_the_selected_record_witness :
    (get (Driver.ok 1) (postAll State.empty
        [(Driver.ok 0, saveRequest [1]), (Driver.ok 0, saveRequest [2])]).1
        ResponseWriter.fresh readRequest).w.body = [2, 10] :=
  (get_returns_the_selected_record State.empty
    [(Driver.ok 0, saveRequest [1]), (Driver.ok 0, saveRequest [2])]
    (Driver.ok 1) ResponseWriter.fresh readRequest (by decide) (by decide) rfl).2.2.2.1
    [2] rfl (by decide)

/-! ## Frame, failure and sessions -/

/-- C6. Neither handler changes or removes a stored record: after `post`,
returned or panicked, the documents of the store are those from before, in the
same order and with the same content, followed by what was added, so every
document from before is still there, in every collection; after `get`,
returned or panicked, the documents of the store are exactly those from
before. -/
theorem handlers_keep_existing_records (drv : Driver) (st : State) (w : ResponseWriter)
    (req : Request) :
    (∃ added, (post drv st w req).state.docs = st.docs ++ added) ∧
    (∀ d ∈ st.docs, d ∈ (post drv st w req).state.docs) ∧
    (∀ (i : Nat) (d : Doc), st.docs[i]? = some d →
      (post drv st w req).state.docs[i]? = some d) ∧
    (∀ db coll, ∃ added,
      (post drv st w req).state.records db coll = st.records db coll ++ added) ∧
    (get drv st w req).state.docs = st.docs ∧
    (∀ db coll, (get drv st w req).state.records db coll = st.records db coll) := by
  have hpost : ∃ added, (post drv st w req).state.docs = st.docs ++ added := by
    cases h1 : req.Body.fault with
    | some e => exact ⟨[], by simp [post_of_bodyFault drv st w req e h1]⟩
    | none =>
      cases h2 : drv.insertFault with
      | some e => exact ⟨[], by simp [post_of_insertFault drv st w req e h1 h2, State.afterSession]⟩
      | none =>
        exact ⟨[savedDoc req.Body.data],
          by simp [post_of_ok drv st w req h1 h2, State.afterSession]⟩
  have hget : (get drv st w req).state.docs = st.docs := by
    simp [get, Session.Copy, Session.Close]
    split <;> rfl
  obtain ⟨added, hadd⟩ := hpost
  refine ⟨⟨added, hadd⟩, ?_, ?_, ?_, hget, ?_⟩
  · intro d hd
    rw [hadd]
    exact List.mem_append_left _ hd
  · intro i d hi
    rw [hadd]
    have hlt : i < st.docs.length := by
      by_contra hge
      rw [List.getElem?_eq_none (Nat.le_of_not_lt hge)] at hi
      cases hi
    rw [List.getElem?_append_left hlt]
    exact hi
  · intro db coll
    refine ⟨(added.filter (fun d => decide (d.db = db ∧ d.coll = coll))).map Doc.entity, ?_⟩
    simp [State.records, hadd, List.filter_append]
  · intro db coll
    simp [State.records, hget]

/-- C7. A failure on the request path aborts the handler with that error and
without a response body.  When the body read fails with `e`, `post` panics with
`e` and leaves state and writer untouched (no session, no insert); when the
insert fails with `e`, `post` panics with `e`, the writer and the documents
untouched; when the query fails with `e`, or finds nothing (the not-found
error), `get` panics with that error, the writer untouched.  Whenever a
handler panics the writer is as before, and a handler returns if and only if
its body read and its store operation succeeded. -/
theorem failure_aborts_without_response_body (drv : Driver) (st : State)
    (w : ResponseWriter) (req : Request) :
    (∀ e, (ReadAll req.Body).2 = some e → post drv st w req = ⟨st, w, Outcome.panicked e⟩) ∧
    (∀ e, (ReadAll req.Body).2 = none →
      (((st.mongoConn.DB "test").C "data").Insert drv st ⟨req.Body.data⟩).1 = some e →
        (post drv st w req).outcome = Outcome.panicked e ∧
        (post drv st w req).w = w ∧
        (post drv st w req).state.docs = st.docs) ∧
    (∀ e, ((((st.mongoConn.DB "test").C "data").Find []).One drv st ⟨[]⟩).2 = some e →
        (get drv st w req).outcome = Outcome.panicked e ∧ (get drv st w req).w = w) ∧
    (drv.findFault = none → st.records "test" "data" = [] →
        (get drv st w req).outcome = Outcome.panicked GoError.notFound) ∧
    (∀ e, (post drv st w req).outcome = Outcome.panicked e → (post drv st w req).w = w) ∧
    (∀ e, (get drv st w req).outcome = Outcome.panicked e → (get drv st w req).w = w) ∧
    ((post drv st w req).outcome = Outcome.returned ↔
      (ReadAll req.Body).2 = none ∧
      (((st.mongoConn.DB "test").C "data").Insert drv st ⟨req.Body.data⟩).1 = none) ∧
    ((get drv st w req).outcome = Outcome.returned ↔
      ((((st.mongoConn.DB "test").C "data").Find []).One drv st ⟨[]⟩).2 = none) := by
  have hins : ∀ x, (((st.mongoConn.DB "test").C "data").Insert drv st ⟨req.Body.data⟩).1 = x
      ↔ drv.insertFault = x := by
    intro x
    cases h : drv.insertFault <;> simp [Collection.Insert, h]
  have hpostw : (post drv st w req).w = w := by
    cases h1 : req.Body.fault with
    | some e => rw [post_of_bodyFault drv st w req e h1]
    | none =>
      cases h2 : drv.insertFault with
      | some e => rw [post_of_insertFault drv st w req e h1 h2]
      | none => rw [post_of_ok drv st w req h1 h2]
  have hone : ((((st.mongoConn.DB "test").C "data").Find []).One drv st ⟨[]⟩)
      = match drv.findFault with
        | some err => (⟨[]⟩, some err)
        | none =>
          match (st.records "test" "data")[drv.findPick % (st.records "test" "data").length]? with
          | some e => (e, none)
          | none => (⟨[]⟩, some GoError.notFound) := by
    simp only [Query.One, matching_all]
  have hgetcases : ∀ x, ((((st.mongoConn.DB "test").C "data").Find []).One drv st ⟨[]⟩).2 = x →
      (x = none → (get drv st w req).outcome = Outcome.returned) ∧
      (∀ e, x = some e → (get drv st w req).outcome = Outcome.panicked e ∧
        (get drv st w req).w = w) := by
    intro x hx
    rw [hone] at hx
    cases h1 : drv.findFault with
    | some e0 =>
      rw [h1] at hx
      rw [get_of_findFault drv st w req e0 h1]
      subst hx
      exact ⟨fun h => (by cases h), fun e he => (by cases he; exact ⟨rfl, rfl⟩)⟩
    | none =>
      rw [h1] at hx
      cases h2 : (st.records "test" "data")[drv.findPick % (st.records "test" "data").length]? with
      | none =>
        rw [h2] at hx
        rw [get_of_none drv st w req h1 h2]
        subst hx
        exact ⟨fun h => (by cases h), fun e he => (by cases he; exact ⟨rfl, rfl⟩)⟩
      | some e1 =>
        rw [h2] at hx
        rw [get_of_some drv st w req e1 h1 h2]
        subst hx
        exact ⟨fun _ => rfl, fun e he => (by cases he)⟩
  refine ⟨?_, ?_, ?_, ?_, fun _ _ => hpostw, ?_, ?_, ?_⟩
  · intro e he
    exact post_of_bodyFault drv st w req e he
  · intro e h1 h2
    have h2b := (hins _).mp h2
    rw [post_of_insertFault drv st w req e h1 h2b]
    exact ⟨rfl, rfl, by simp [State.afterSession]⟩
  · intro e he
    exact (hgetcases _ he).2 e rfl
  · intro h1 h2
    rw [get_of_none drv st w req h1 (pick_none_of_nil _ _ h2)]
  · intro e he
    cases hx : ((((st.mongoConn.DB "test").C "data").Find []).One drv st ⟨[]⟩).2 with
    | none =>
      rw [(hgetcases _ hx).1 rfl] at he
      cases he
    | some e2 => exact ((hgetcases _ hx).2 e2 rfl).2
  · rw [post_returned_iff, hins]
    rfl
  · constructor
    · intro hret
      cases hx : ((((st.mongoConn.DB "test").C "data").Find []).One drv st ⟨[]⟩).2 with
      | none => rfl
      | some e2 =>
        rw [((hgetcases _ hx).2 e2 rfl).1] at hret
        cases hret
    · intro hx
      exact (hgetcases _ hx).1 rfl

/-- Witness of C7: a broken body stream, a failing insert and a failing query
each end in a panic with that very error and an empty response body. -/
theorem failure_aborts_without_response_body_witness :
    post Driver.down State.empty ResponseWriter.fresh brokenRequest
      = ⟨State.empty, ResponseWriter.fresh, Outcome.panicked (GoError.bodyRead 5)⟩ ∧
    ((post Driver.down State.empty ResponseWriter.fresh (saveRequest hello)).outcome
        = Outcome.panicked (GoError.write 7) ∧
      (post Driver.down State.empty ResponseWriter.fresh (saveRequest hello)).w
        = ResponseWriter.fresh ∧
      (post Driver.down State.empty ResponseWriter.fresh (saveRequest hello)).state.docs = []) ∧
    ((get Driver.down State.empty ResponseWriter.fresh readRequest).outcome
        = Outcome.panicked (GoError.read 8) ∧
      (get Driver.down State.empty ResponseWriter.fresh readRequest).w
        = ResponseWriter.fresh) :=
  ⟨(failure_aborts_without_response_body Driver.down State.empty ResponseWriter.fresh
      brokenRequest).1 (GoError.bodyRead 5) rfl,
   (failure_aborts_without_response_body Driver.down State.empty ResponseWriter.fresh
      (saveRequest hello)).2.1 (GoError.write 7) rfl rfl,
   (failure_aborts_without_response_body Driver.down State.empty ResponseWriter.fresh
      readRequest).2.2.1 (GoError.read 8) rfl⟩

/-- C8. Session derivation and release are balanced on every exit of both
handlers: the number of open sessions after `post` or `get`, returned or
panicked, is the number before; `post` derives no session when the body read
fails and otherwise derives one session and releases it once, `get` always
derives one session and releases it once, whether or not the store operation
fails; and at every point of the request at most one session more is open than
before it. -/
theorem sessions_are_balanced (drv : Driver) (st : State) (w : ResponseWriter)
    (req : Request) :
    (post drv st w req).state.openSessions = st.openSessions ∧
    (get drv st w req).state.openSessions = st.openSessions ∧
    (∃ evs, (post drv st w req).state.sessionLog = st.sessionLog ++ evs ∧
      ((ReadAll req.Body).2 = none → evs = [SessionEvent.copy, SessionEvent.close]) ∧
      ((ReadAll req.Body).2 ≠ none → evs = []) ∧
      ∀ k, openAfter st.openSessions (evs.take k) ≤ st.openSessions + 1) ∧
    (get drv st w req).state.sessionLog
      = st.sessionLog ++ [SessionEvent.copy, SessionEvent.close] ∧
    (∀ k, openAfter st.openSessions ([SessionEvent.copy, SessionEvent.close].take k)
      ≤ st.openSessions + 1) := by
  have hk : ∀ k, openAfter st.openSessions ([SessionEvent.copy, SessionEvent.close].take k)
      ≤ st.openSessions + 1 := by
    intro k
    rcases k with _ | _ | k <;> simp [openAfter]
  have hgs : (get drv st w req).state = st.afterSession st.docs := by
    cases h1 : drv.findFault with
    | some e => rw [get_of_findFault drv st w req e h1]
    | none =>
      cases h2 : (st.records "test" "data")[drv.findPick % (st.records "test" "data").length]? with
      | none => rw [get_of_none drv st w req h1 h2]
      | some e => rw [get_of_some drv st w req e h1 h2]
  refine ⟨?_, ?_, ?_, ?_, hk⟩
  · cases h1 : req.Body.fault with
    | some e => rw [post_of_bodyFault drv st w req e h1]
    | none =>
      cases h2 : drv.insertFault with
      | some e => rw [post_of_insertFault drv st w req e h1 h2]; simp [State.afterSession]
      | none => rw [post_of_ok drv st w req h1 h2]; simp [State.afterSession]
  · rw [hgs]
    simp [State.afterSession]
  · cases h1 : req.Body.fault with
    | some e =>
      refine ⟨[], ?_, ?_, ?_, ?_⟩
      · rw [post_of_bodyFault drv st w req e h1]; simp
      · intro h; simp [ReadAll, h1] at h
      · intro _; rfl
      · intro k; simp [openAfter]
    | none =>
      refine ⟨[SessionEvent.copy, SessionEvent.close], ?_, fun _ => rfl, ?_, hk⟩
      · cases h2 : drv.insertFault with
        | some e => rw [post_of_insertFault drv st w req e h1 h2]; simp [State.afterSession]
        | none => rw [post_of_ok drv st w req h1 h2]; simp [State.afterSession]
      · intro h; simp [ReadAll, h1] at h
  · rw [hgs]
    simp [State.afterSession]

/-! ## Start-up and dispatch -/

/-- C9. A connection failure at start-up is fatal and no service starts: when
`createConnection` fails with `e`, `main` panics with `e`, no route is
registered, no listener is started and `mongoConn` stays nil.  Conversely,
when `main` has registered a route or started a listener, the connect
succeeded, `mongoConn` holds its session, and `main` took exactly these steps
in this order: the one assignment of `mongoConn`, the route "/save", the route
"/read", the listener on ":8080". -/
theorem connection_failure_is_fatal (rt : Runtime) :
    (∀ e, createConnection rt = Except.error e →
      (main rt Process.start).2 = MainOutcome.panicked e ∧
      (main rt Process.start).1.mux = [] ∧
      (main rt Process.start).1.listeners = [] ∧
      (main rt Process.start).1.mongoConn = none ∧
      (main rt Process.start).1.trace = [MainEvent.assignConn none]) ∧
    (((main rt Process.start).1.mux ≠ [] ∨ (main rt Process.start).1.listeners ≠ []) →
      ∃ s, createConnection rt = Except.ok s ∧
        (main rt Process.start).1.mongoConn = some s ∧
        (main rt Process.start).1.mux = routes ∧
        (main rt Process.start).1.listeners = [":8080"] ∧
        (main rt Process.start).1.trace =
          [MainEvent.assignConn (some s),
           MainEvent.handleFunc "/save" HandlerFunc.post,
           MainEvent.handleFunc "/read" HandlerFunc.get,
           MainEvent.listenAndServe ":8080"]) := by
  have hfail : ∀ e, createConnection rt = Except.error e →
      main rt Process.start
        = (⟨none, [], [], [MainEvent.assignConn none]⟩, MainOutcome.panicked e) := by
    intro e he
    simp [main, he, Process.start]
  have hok : ∀ s, createConnection rt = Except.ok s →
      (main rt Process.start).1
        = ⟨some s, routes, [":8080"],
            [MainEvent.assignConn (some s),
             MainEvent.handleFunc "/save" HandlerFunc.post,
             MainEvent.handleFunc "/read" HandlerFunc.get,
             MainEvent.listenAndServe ":8080"]⟩ := by
    intro s hs
    simp only [main, hs, ListenAndServe, HandleFunc, Process.start, routes]
    cases rt.listenAndServe ":8080" <;> rfl
  constructor
  · intro e he
    rw [hfail e he]
    exact ⟨rfl, rfl, rfl, rfl, rfl⟩
  · intro h
    cases hc : createConnection rt with
    | error e =>
      rw [hfail e hc] at h
      simp at h
    | ok s =>
      refine ⟨s, rfl, ?_, ?_, ?_, ?_⟩ <;> rw [hok s hc]

/-- Witness of C9: a start-up that cannot reach the cluster panics with the
connection error, nothing registered; a start-up that reaches it has both
routes and the listener. -/
theorem connection_failure_is_fatal_witness :
    ((main Runtime.unreachable Process.start).2 = MainOutcome.panicked (GoError.connection 3) ∧
      (main Runtime.unreachable Process.start).1.mux = [] ∧
      (main Runtime.unreachable Process.start).1.listeners = [] ∧
      (main Runtime.unreachable Process.start).1.mongoConn = none ∧
      (main Runtime.unreachable Process.start).1.trace = [MainEvent.assignConn none]) ∧
    ∃ s, createConnection Runtime.healthy = Except.ok s ∧
      (main Runtime.healthy Process.start).1.mongoConn = some s ∧
      (main Runtime.healthy Process.start).1.mux = routes ∧
      (main Runtime.healthy Process.start).1.listeners = [":8080"] ∧
      (main Runtime.healthy Process.start).1.trace =
        [MainEvent.assignConn (some s),
         MainEvent.handleFunc "/save" HandlerFunc.post,
         MainEvent.handleFunc "/read" HandlerFunc.get,
         MainEvent.listenAndServe ":8080"] :=
  ⟨(connection_failure_is_fatal Runtime.unreachable).1 (GoError.connection 3) rfl,
   (connection_failure_is_fatal Runtime.healthy).2 (Or.inl (by decide))⟩

/-- C10. The handlers ignore everything in a request except what they read:
two requests with the same body make `post` end in the same state, response
and outcome, whatever their method, path, query and headers, and the response
is what the writer held before; any two requests make `get` end in the same
state, response and outcome.  In particular, with the routes of `main`, a
request to "/save" of any method whose body `B` is read and inserted
successfully is served by `post` and adds the document `{data: B}`. -/
theorem handlers_ignore_method_headers_query (drv : Driver) (st : State)
    (w : ResponseWriter) (r1 r2 : Request) :
    (r1.Body = r2.Body → post drv st w r1 = post drv st w r2) ∧
    (post drv st w r1).w = w ∧
    get drv st w r1 = get drv st w r2 ∧
    (∀ (p : Process) (B : List Byte), p.mux = routes → r1.Path = "/save" →
      ReadAll r1.Body = (B, none) → drv.insertFault = none →
        serve p drv st w r1 = some (post drv st w r1) ∧
        (post drv st w r1).outcome = Outcome.returned ∧
        (post drv st w r1).state.docs = st.docs ++ [⟨"test", "data", ⟨B⟩⟩]) := by
  refine ⟨?_, ?_, rfl, ?_⟩
  · intro h
    simp only [post, h]
  · cases h1 : r1.Body.fault with
    | some e => rw [post_of_bodyFault drv st w r1 e h1]
    | none =>
      cases h2 : drv.insertFault with
      | some e => rw [post_of_insertFault drv st w r1 e h1 h2]
      | none => rw [post_of_ok drv st w r1 h1 h2]
  · intro p B hp hpath hread hins
    simp only [ReadAll, Prod.mk.injEq] at hread
    obtain ⟨hB, hfault⟩ := hread
    refine ⟨?_, ?_, ?_⟩
    · simp [serve, hp, routes, hpath]
    · rw [post_of_ok drv st w r1 hfault hins]
    · rw [post_of_ok drv st w r1 hfault hins, hB]
      simp [State.afterSession, savedDoc]

/-- Witness of C10: a DELETE request to "/save" with headers and a query is
handled like the POST request with the same body, and inserts that body. -/
theorem handlers_ignore_method_headers_query_witness :
    post (Driver.ok 0) State.empty ResponseWriter.fresh (deleteRequest hello)
      = post (Driver.ok 0) State.empty ResponseWriter.fresh (saveRequest hello) ∧
    (serve (main Runtime.healthy Process.start).1 (Driver.ok 0) State.empty
        ResponseWriter.fresh (deleteRequest hello)
      = some (post (Driver.ok 0) State.empty ResponseWriter.fresh (deleteRequest hello)) ∧
     (post (Driver.ok 0) State.empty ResponseWriter.fresh (deleteRequest hello)).outcome
      = Outcome.returned ∧
     (post (Driver.ok 0) State.empty ResponseWriter.fresh (deleteRequest hello)).state.docs
      = State.empty.docs ++ [⟨"test", "data", ⟨hello⟩⟩]) :=
  ⟨(handlers_ignore_method_headers_query (Driver.ok 0) State.empty ResponseWriter.fresh
      (deleteRequest hello) (saveRequest hello)).1 rfl,
   (handlers_ignore_method_headers_query (Driver.ok 0) State.empty ResponseWriter.fresh
      (deleteRequest hello) (saveRequest hello)).2.2.2
      (main Runtime.healthy Process.start).1 hello rfl rfl rfl rfl⟩

end GoMongoAtlas
